import Mathlib

/-!
Shallow embedding of `src/scorer_app.py` (scoring-workflow engine of the
arviu_scorer repository): catalog listing, per-scorer measurement logs,
distance computation, assignment, progress and admin aggregation.

The filesystem state is modelled explicitly: `AppState.manifest` is the
`manifest.json` mapping (code to its `system` tag) and `AppState.logs` maps a
scorer id to its data directory, holding an optional `scores.csv` content
(a list of CSV lines).  Python floats are modelled as real numbers.
-/

namespace ScorerApp

/-- Calibration constants, scorer_app.py lines 43-48. -/
def BOX_W_INCHES : ℝ := 5.84

def BOX_H_INCHES : ℝ := 6.31

def IMG_W_PX : ℝ := 1110

def IMG_H_PX : ℝ := 1215

/-- `PX_PER_INCH = ((IMG_W_PX / BOX_W_INCHES) + (IMG_H_PX / BOX_H_INCHES)) / 2`. -/
noncomputable def PX_PER_INCH : ℝ :=
  ((IMG_W_PX / BOX_W_INCHES) + (IMG_H_PX / BOX_H_INCHES)) / 2

/-- `MM_PER_PX = 25.4 / PX_PER_INCH`, module-level constant computed once. -/
noncomputable def MM_PER_PX : ℝ := 25.4 / PX_PER_INCH

/-- `AR_SYSTEMS = {"2D/AR", "AR-VIU"}`, scorer_app.py line 40. -/
def AR_SYSTEMS : List String := ["2D/AR", "AR-VIU"]

/-- One submitted measurement pair, the JSON object
`{id, p1_x, p1_y, p2_x, p2_y}` consumed by `save_measurements`. -/
structure Measurement where
  id : String
  p1_x : ℝ
  p1_y : ℝ
  p2_x : ℝ
  p2_y : ℝ

/-- Pixel distance, scorer_app.py lines 96-98:
`dist_px = (dx**2 + dy**2) ** 0.5`. -/
noncomputable def dist_px (p1_x p1_y p2_x p2_y : ℝ) : ℝ :=
  Real.sqrt ((p1_x - p2_x) ^ 2 + (p1_y - p2_y) ^ 2)

/-- Millimetre distance, scorer_app.py line 99: `dist_mm = dist_px * MM_PER_PX`. -/
noncomputable def dist_mm (p1_x p1_y p2_x p2_y : ℝ) : ℝ :=
  dist_px p1_x p1_y p2_x p2_y * MM_PER_PX

/-- One persisted CSV data row, scorer_app.py lines 100-106. -/
structure Row where
  image_code : String
  measurement_id : String
  p1_x : ℝ
  p1_y : ℝ
  p2_x : ℝ
  p2_y : ℝ
  distance_px : ℝ
  distance_mm : ℝ
  timestamp : String

/-- A line of a `scores.csv` file: either the fixed CSV header or a data row. -/
inductive Line where
  | header
  | record (row : Row)

/-- Whether a CSV line is the header line. -/
def Line.isHeader : Line → Bool
  | .header => true
  | .record _ => false

/-- The value found in the `image_code` column of a CSV line when it is read
back as a data row (`csv.DictReader` keys rows by the first line's fields; the
header's own first field is the literal string `image_code`). -/
def Line.code : Line → String
  | .header => "image_code"
  | .record r => r.image_code

/-- Whole-application state: the catalog manifest (image code to `system` tag)
and, per scorer id, that scorer's data directory with its optional
`scores.csv` content. -/
structure AppState where
  manifest : List (String × String)
  logs : List (String × Option (List Line))

/-- Association-list lookup (first match), modelling a `dict`/directory lookup. -/
def lookupA {β : Type} : List (String × β) → String → Option β
  | [], _ => none
  | (k0, v) :: rest, k => if k0 = k then some v else lookupA rest k

/-- Association-list insert-or-replace, modelling a directory/file write. -/
def upsertA {β : Type} : List (String × β) → String → β → List (String × β)
  | [], k, v => [(k, v)]
  | (k0, v0) :: rest, k, v =>
      if k0 = k then (k0, v) :: rest else (k0, v0) :: upsertA rest k v

/-- Content of `SCORER_DATA_DIR / sid / "scores.csv"`, `none` when the scorer's
directory or the file is absent. -/
def scoresFile (st : AppState) (sid : String) : Option (List Line) :=
  match lookupA st.logs sid with
  | none => none
  | some f => f

/-- `get_image_list`, scorer_app.py lines 68-70: sorted manifest keys. -/
def get_image_list (st : AppState) : List String :=
  (st.manifest.map Prod.fst).mergeSort

/-- `manifest.get(code, {}).get("system", "")`, scorer_app.py line 140. -/
def systemOf (st : AppState) (code : String) : String :=
  match lookupA st.manifest code with
  | none => ""
  | some s => s

/-- `get_scorer_progress`, scorer_app.py lines 73-81: the set of distinct
`image_code` values among the data rows of the scorer's log (the first CSV
line is consumed as the `DictReader` field-name row), empty when the file is
absent.  The Python `set` is modelled as a duplicate-free list. -/
def get_scorer_progress (st : AppState) (sid : String) : List String :=
  match scoresFile st sid with
  | none => []
  | some lines => (lines.tail.map Line.code).dedup

/-- Builds the CSV data row written for one measurement,
scorer_app.py lines 95-106. -/
noncomputable def mkRow (image_code : String) (m : Measurement) (now : String) : Row :=
  { image_code := image_code
    measurement_id := m.id
    p1_x := m.p1_x
    p1_y := m.p1_y
    p2_x := m.p2_x
    p2_y := m.p2_y
    distance_px := dist_px m.p1_x m.p1_y m.p2_x m.p2_y
    distance_mm := dist_mm m.p1_x m.p1_y m.p2_x m.p2_y
    timestamp := now }

/-- `save_measurements`, scorer_app.py lines 84-106: ensure the scorer's
directory exists, open `scores.csv` in append mode (creating it), write the
header iff the file did not already exist, then append one data row per
measurement. -/
noncomputable def save_measurements (st : AppState) (sid : String)
    (image_code : String) (measurements : List Measurement) (now : String) :
    AppState :=
  let base : List Line :=
    match scoresFile st sid with
    | none => [Line.header]
    | some lines => lines
  let newLines := base ++ measurements.map (fun m => Line.record (mkRow image_code m now))
  { st with logs := upsertA st.logs sid (some newLines) }

/-- Result of the `/score` route (`score_next`). -/
inductive NextResult where
  | redirectIndex
  | done (total : ℕ) (scorer_id : String)
  | assign (image_code : String) (ref_type : String)
      (progress_done progress_total : ℕ) (scorer_id : String) (mm_per_px : ℝ)

/-- `score_next`, scorer_app.py lines 125-151: redirect without a session,
otherwise subtract the scorer's completed set from the sorted code list and
present the first remainder (with its reference kind and progress counts), or
the done page when nothing remains. -/
noncomputable def score_next (st : AppState) (sess : Option String) : NextResult :=
  match sess with
  | none => .redirectIndex
  | some sid =>
    let all_codes := get_image_list st
    let scored := get_scorer_progress st sid
    let remaining := all_codes.filter (fun c => !(scored.contains c))
    match remaining with
    | [] => .done all_codes.length sid
    | code :: _ =>
      let system := systemOf st code
      let ref_type := if AR_SYSTEMS.contains system then "ar" else "screen"
      .assign code ref_type scored.length all_codes.length sid MM_PER_PX

/-- The image code carried by an assignment result, if any. -/
def NextResult.assignedCode : NextResult → Option String
  | .assign code _ _ _ _ _ => some code
  | _ => none

/-- HTTP-level outcome of the `/submit` route. -/
inductive SubmitOutcome where
  | errNoScorer
  | errNoImageCode
  | ok
deriving DecidableEq

/-- `submit_scores`, scorer_app.py lines 171-185: reject when no scorer
session; reject when `image_code` is missing or falsy (empty); otherwise call
`save_measurements` and acknowledge.  Returns the response paired with the
post-state (error paths write nothing). -/
noncomputable def submit_scores (st : AppState) (sess : Option String)
    (image_code : Option String) (measurements : List Measurement)
    (now : String) : SubmitOutcome × AppState :=
  match sess with
  | none => (.errNoScorer, st)
  | some sid =>
    match image_code with
    | none => (.errNoImageCode, st)
    | some c =>
      if c = "" then (.errNoImageCode, st)
      else (.ok, save_measurements st sid c measurements now)

/-- Result of the `/progress` route. -/
inductive ProgressResult where
  | redirectIndex
  | report (scorer_id : String) (total scored : ℕ) (remaining : ℤ)
deriving DecidableEq

/-- `progress`, scorer_app.py lines 188-200: totals from the catalog, scored
count from the scorer's log, `remaining = total - scored` as Python integer
subtraction (which may be negative). -/
def progress (st : AppState) (sess : Option String) : ProgressResult :=
  match sess with
  | none => .redirectIndex
  | some sid =>
    let all_codes := get_image_list st
    let scored := get_scorer_progress st sid
    .report sid all_codes.length scored.length
      ((all_codes.length : ℤ) - (scored.length : ℤ))

/-- Python `round` on an exact rational: round half to even. -/
def pyRound (q : ℚ) : ℤ :=
  let n := ⌊q⌋
  let f := q - (n : ℚ)
  if f < 1 / 2 then n
  else if 1 / 2 < f then n + 1
  else if n % 2 = 0 then n else n + 1

/-- One entry of the `/admin/status` report. -/
structure ScorerStatus where
  id : String
  scored : ℕ
  total : ℕ
  pct : ℤ
deriving DecidableEq

/-- `admin_status`, scorer_app.py lines 231-247: total catalog size, then for
every scorer directory (sorted by name) that has a `scores.csv`, its distinct
scored count and `round(scored / total * 100)` guarded by `if total else 0`. -/
def admin_status (st : AppState) : ℕ × List ScorerStatus :=
  let total := (get_image_list st).length
  let names := (st.logs.map Prod.fst).mergeSort
  (total,
    names.filterMap (fun name =>
      match scoresFile st name with
      | none => none
      | some _ =>
        let scored := (get_scorer_progress st name).length
        some { id := name
               scored := scored
               total := total
               pct := if total = 0 then 0
                      else pyRound ((scored : ℚ) / (total : ℚ) * 100) }))

/-- Number of header lines in a log. -/
def headerCount (lines : List Line) : ℕ :=
  lines.countP Line.isHeader

/-- Well-formedness of the on-disk state: every existing `scores.csv` starts
with the header line (true of every file `save_measurements` ever creates). -/
def WF (st : AppState) : Prop :=
  ∀ sid lines, scoresFile st sid = some lines → lines.head? = some Line.header

/-- One call to `save_measurements` for a fixed scorer. -/
structure SaveCall where
  image_code : String
  measurements : List Measurement
  now : String

/-- Replay a sequence of `save_measurements` calls for one scorer. -/
noncomputable def applyCalls (st : AppState) (sid : String) :
    List SaveCall → AppState
  | [] => st
  | c :: rest => applyCalls (save_measurements st sid c.image_code c.measurements c.now) sid rest

/-! ### Basic lemmas about the storage model -/

theorem lookupA_upsertA_self {β : Type} (l : List (String × β)) (k : String) (v : β) :
    lookupA (upsertA l k v) k = some v := by
  induction l with
  | nil => simp [upsertA, lookupA]
  | cons hd tl ih =>
    obtain ⟨k0, v0⟩ := hd
    by_cases h : k0 = k
    · simp [upsertA, lookupA, h]
    · simp [upsertA, lookupA, h, ih]

theorem scoresFile_save_self (st : AppState) (sid code : String)
    (ms : List Measurement) (now : String) :
    scoresFile (save_measurements st sid code ms now) sid =
      some ((match scoresFile st sid with
              | none => [Line.header]
              | some lines => lines)
        ++ ms.map (fun m => Line.record (mkRow code m now))) := by
  unfold save_measurements
  unfold scoresFile
  rw [lookupA_upsertA_self]

theorem headerCount_data_rows (code now : String) (ms : List Measurement) :
    headerCount (ms.map (fun m => Line.record (mkRow code m now))) = 0 := by
  simp [headerCount, List.countP_map, Line.isHeader, Function.comp]

/-- After appending at least one measurement for `code`, `code` is among the
scorer's completed codes, provided every pre-existing file starts with the
header line. -/
theorem mem_progress_save (st : AppState) (sid code now : String)
    (m : Measurement) (ms : List Measurement) (hwf : WF st) :
    code ∈ get_scorer_progress (save_measurements st sid code (m :: ms) now) sid := by
  have hfile := scoresFile_save_self st sid code (m :: ms) now
  unfold get_scorer_progress
  rw [hfile]
  have hbase : ∃ b bs, (match scoresFile st sid with
      | none => [Line.header]
      | some lines => lines) = b :: bs := by
    cases h : scoresFile st sid with
    | none => exact ⟨Line.header, [], rfl⟩
    | some lines =>
      have := hwf sid lines h
      cases lines with
      | nil => simp at this
      | cons b bs => exact ⟨b, bs, rfl⟩
  obtain ⟨b, bs, hb⟩ := hbase
  rw [hb]
  simp only [List.cons_append, List.tail_cons]
  rw [List.mem_dedup]
  refine List.mem_map.mpr ?_
  refine ⟨Line.record (mkRow code m now), ?_, rfl⟩
  exact List.mem_append_right _ (List.mem_map.mpr ⟨m, List.mem_cons_self m ms, rfl⟩)

/-! ### Claims -/

/-- Claim C3: the recorded `distance_px` equals
`sqrt((p1.x - p2.x)^2 + (p1.y - p2.y)^2)`, the recorded `distance_mm` equals
`distance_px * MM_PER_PX`, and `MM_PER_PX = 25.4 / PX_PER_INCH` where
`PX_PER_INCH` is the average of the horizontal and vertical
pixels-per-inch ratios of the fixed calibration constants. -/
theorem C3_recorded_distances (code : String) (m : Measurement) (now : String) :
    (mkRow code m now).distance_px
        = Real.sqrt ((m.p1_x - m.p2_x) ^ 2 + (m.p1_y - m.p2_y) ^ 2) ∧
    (mkRow code m now).distance_mm = (mkRow code m now).distance_px * MM_PER_PX ∧
    MM_PER_PX = 25.4 / PX_PER_INCH ∧
    PX_PER_INCH = ((IMG_W_PX / BOX_W_INCHES) + (IMG_H_PX / BOX_H_INCHES)) / 2 :=
  ⟨rfl, rfl, rfl, rfl⟩

/-- Claim C7: the distance function is symmetric in its two points and zero on
equal points, for both the pixel and the millimetre component. -/
theorem C7_distance_symm_and_zero (p1_x p1_y p2_x p2_y : ℝ) :
    dist_px p1_x p1_y p2_x p2_y = dist_px p2_x p2_y p1_x p1_y ∧
    dist_mm p1_x p1_y p2_x p2_y = dist_mm p2_x p2_y p1_x p1_y ∧
    dist_px p1_x p1_y p1_x p1_y = 0 ∧
    dist_mm p1_x p1_y p1_x p1_y = 0 := by
  have hsym : dist_px p1_x p1_y p2_x p2_y = dist_px p2_x p2_y p1_x p1_y := by
    unfold dist_px
    congr 1
    ring
  have hzero : dist_px p1_x p1_y p1_x p1_y = 0 := by
    unfold dist_px
    rw [sub_self, sub_self]
    norm_num
  refine ⟨hsym, ?_, hzero, ?_⟩
  · unfold dist_mm
    rw [hsym]
  · unfold dist_mm
    rw [hzero, zero_mul]

/-- Claim C1 (counterexample): a submission with a present `image_code` and an
empty measurements list is NOT rejected — it returns the ok outcome and does
write (it creates the scorer's log with its header), contradicting the claim
that an empty measurements list is rejected with no partial write. -/
theorem C1_counterexample :
    (submit_scores ⟨[("A001", "2D/AR")], []⟩ (some "s1") (some "A001") [] "t0").1
        = SubmitOutcome.ok ∧
    scoresFile
        (submit_scores ⟨[("A001", "2D/AR")], []⟩ (some "s1") (some "A001") [] "t0").2
        "s1"
      = some [Line.header] := by
  exact ⟨rfl, rfl⟩

/-- Claim C1 (amended): a submission with a missing or empty `image_code` is
rejected with the explicit error outcome and the state is unchanged (no
partial write); an empty measurements list with a valid `image_code` is not
rejected — it returns the ok outcome. -/
theorem C1_malformed_submission (st : AppState) (sid : String)
    (ms : List Measurement) (code now : String) (hc : code ≠ "") :
    submit_scores st (some sid) none ms now = (SubmitOutcome.errNoImageCode, st) ∧
    submit_scores st (some sid) (some "") ms now = (SubmitOutcome.errNoImageCode, st) ∧
    (submit_scores st (some sid) (some code) [] now).1 = SubmitOutcome.ok := by
  refine ⟨rfl, rfl, ?_⟩
  show (if code = "" then (SubmitOutcome.errNoImageCode, st)
        else (SubmitOutcome.ok, save_measurements st sid code [] now)).1
      = SubmitOutcome.ok
  rw [if_neg hc]

/-- Witness for the amended claim C1 at a concrete input. -/
theorem C1_malformed_submission_witness :
    ("A001" : String) ≠ "" ∧
    (submit_scores ⟨[], []⟩ (some "s1") none [] "t" = (SubmitOutcome.errNoImageCode, ⟨[], []⟩) ∧
     submit_scores ⟨[], []⟩ (some "s1") (some "") [] "t" = (SubmitOutcome.errNoImageCode, ⟨[], []⟩) ∧
     (submit_scores ⟨[], []⟩ (some "s1") (some "A001") [] "t").1 = SubmitOutcome.ok) :=
  ⟨by decide, C1_malformed_submission ⟨[], []⟩ "s1" [] "A001" "t" (by decide)⟩

/-- Claim C10: with an active identity and a non-empty `image_code`, a
submission with an empty measurements list returns the ok outcome; if the
scorer had no log yet it creates the scorer's namespace with a log containing
only the header; and no image joins the completed set. -/
theorem C10_empty_measurements_accepted (st : AppState) (sid code now : String)
    (hc : code ≠ "") :
    (submit_scores st (some sid) (some code) [] now).1 = SubmitOutcome.ok ∧
    (scoresFile st sid = none →
      scoresFile (submit_scores st (some sid) (some code) [] now).2 sid
        = some [Line.header]) ∧
    get_scorer_progress (submit_scores st (some sid) (some code) [] now).2 sid
      = get_scorer_progress st sid := by
  have hred : submit_scores st (some sid) (some code) [] now
      = (SubmitOutcome.ok, save_measurements st sid code [] now) := by
    show (if code = "" then (SubmitOutcome.errNoImageCode, st)
          else (SubmitOutcome.ok, save_measurements st sid code [] now))
        = (SubmitOutcome.ok, save_measurements st sid code [] now)
    rw [if_neg hc]
  rw [hred]
  have hfile := scoresFile_save_self st sid code [] now
  refine ⟨rfl, ?_, ?_⟩
  · intro hnone
    rw [hfile, hnone]
    rfl
  · unfold get_scorer_progress
    rw [hfile]
    cases h : scoresFile st sid with
    | none => rfl
    | some lines => simp

/-- Witness for claim C10 at a concrete input. -/
theorem C10_witness :
    ("A001" : String) ≠ "" ∧
    ((submit_scores ⟨[("A001", "2D/AR")], []⟩ (some "s1") (some "A001") [] "t").1
        = SubmitOutcome.ok ∧
     (scoresFile (⟨[("A001", "2D/AR")], []⟩ : AppState) "s1" = none →
       scoresFile (submit_scores ⟨[("A001", "2D/AR")], []⟩ (some "s1") (some "A001") [] "t").2 "s1"
         = some [Line.header]) ∧
     get_scorer_progress
         (submit_scores ⟨[("A001", "2D/AR")], []⟩ (some "s1") (some "A001") [] "t").2 "s1"
       = get_scorer_progress (⟨[("A001", "2D/AR")], []⟩ : AppState) "s1") :=
  ⟨by decide,
    C10_empty_measurements_accepted ⟨[("A001", "2D/AR")], []⟩ "s1" "A001" "t" (by decide)⟩

/-- An assignment produced by `score_next` is a catalog code the scorer has
not yet completed. -/
theorem assignedCode_not_completed (st : AppState) (sid c : String)
    (h : (score_next st (some sid)).assignedCode = some c) :
    c ∈ get_image_list st ∧ c ∉ get_scorer_progress st sid := by
  simp only [score_next] at h
  split at h
  · simp [NextResult.assignedCode] at h
  · rename_i c0 rest heq
    simp only [NextResult.assignedCode, Option.some.injEq] at h
    subst h
    have hc0 : c0 ∈ (get_image_list st).filter
        (fun x => !((get_scorer_progress st sid).contains x)) := by
      rw [heq]
      exact List.mem_cons_self _ _
    rw [List.mem_filter] at hc0
    refine ⟨hc0.1, ?_⟩
    have := hc0.2
    simpa using this

/-- Claim C8: `score_next` is a deterministic function of the catalog and the
scorer's own log: two states agreeing on both yield the same assignment. -/
theorem C8_assignment_deterministic (st1 st2 : AppState) (sid : String)
    (hm : st1.manifest = st2.manifest)
    (hf : scoresFile st1 sid = scoresFile st2 sid) :
    score_next st1 (some sid) = score_next st2 (some sid) := by
  have hcodes : get_image_list st1 = get_image_list st2 := by
    unfold get_image_list
    rw [hm]
  have hprog : get_scorer_progress st1 sid = get_scorer_progress st2 sid := by
    unfold get_scorer_progress
    rw [hf]
  have hsys : systemOf st1 = systemOf st2 := by
    funext c
    unfold systemOf
    rw [hm]
  simp only [score_next, hcodes, hprog, hsys]

/-- Witness for claim C8: two concrete states that differ only in another
scorer's log give scorer `s1` the same assignment. -/
theorem C8_witness :
    (⟨[("A001", "2D/AR")], [("s2", some [Line.header])]⟩ : AppState).manifest
        = (⟨[("A001", "2D/AR")], []⟩ : AppState).manifest ∧
    scoresFile (⟨[("A001", "2D/AR")], [("s2", some [Line.header])]⟩ : AppState) "s1"
        = scoresFile (⟨[("A001", "2D/AR")], []⟩ : AppState) "s1" ∧
    score_next (⟨[("A001", "2D/AR")], [("s2", some [Line.header])]⟩ : AppState) (some "s1")
        = score_next (⟨[("A001", "2D/AR")], []⟩ : AppState) (some "s1") :=
  ⟨rfl, rfl, C8_assignment_deterministic _ _ "s1" rfl rfl⟩

/-- Claim C9: `submit_scores` does not validate the image code against the
catalog: any non-empty code, even one absent from the manifest, is appended
and joins the scorer's completed set; consequently a state exists in which
the progress report shows more scored images than the catalog holds and a
negative remaining count. -/
theorem C9_no_catalog_validation (st : AppState) (sid code now : String)
    (m : Measurement) (ms : List Measurement) (hwf : WF st) (hc : code ≠ "") :
    ((submit_scores st (some sid) (some code) (m :: ms) now).1 = SubmitOutcome.ok ∧
     code ∈ get_scorer_progress
         (submit_scores st (some sid) (some code) (m :: ms) now).2 sid) ∧
    (∃ (stx : AppState) (sidx : String) (total scored : ℕ) (rem : ℤ),
        progress stx (some sidx) = ProgressResult.report sidx total scored rem ∧
        total < scored ∧ rem < 0) := by
  have hred : submit_scores st (some sid) (some code) (m :: ms) now
      = (SubmitOutcome.ok, save_measurements st sid code (m :: ms) now) := by
    show (if code = "" then (SubmitOutcome.errNoImageCode, st)
          else (SubmitOutcome.ok, save_measurements st sid code (m :: ms) now))
        = (SubmitOutcome.ok, save_measurements st sid code (m :: ms) now)
    rw [if_neg hc]
  refine ⟨⟨?_, ?_⟩, ?_⟩
  · rw [hred]
  · rw [hred]
    exact mem_progress_save st sid code now m ms hwf
  · refine ⟨save_measurements ⟨[], []⟩ "s1" "GHOST" [⟨"g1", 0, 0, 0, 0⟩] "t",
      "s1", 0, 1, -1, ?_, by decide, by decide⟩
    have hfile := scoresFile_save_self ⟨[], []⟩ "s1" "GHOST" [⟨"g1", 0, 0, 0, 0⟩] "t"
    simp only [scoresFile, lookupA, List.map_cons, List.map_nil] at hfile
    simp [progress, get_image_list, get_scorer_progress, hfile, Line.code,
      save_measurements, upsertA, scoresFile, lookupA, mkRow]

/-- Witness for claim C9 at a concrete input. -/
theorem C9_witness :
    WF ⟨[], []⟩ ∧ ("GHOST" : String) ≠ "" ∧
    (((submit_scores ⟨[], []⟩ (some "s1") (some "GHOST") [⟨"g1", 0, 0, 0, 0⟩] "t").1
          = SubmitOutcome.ok ∧
      "GHOST" ∈ get_scorer_progress
          (submit_scores ⟨[], []⟩ (some "s1") (some "GHOST") [⟨"g1", 0, 0, 0, 0⟩] "t").2 "s1") ∧
     (∃ (stx : AppState) (sidx : String) (total scored : ℕ) (rem : ℤ),
        progress stx (some sidx) = ProgressResult.report sidx total scored rem ∧
        total < scored ∧ rem < 0)) := by
  have hwf : WF ⟨[], []⟩ := by
    intro sid lines h
    simp [scoresFile, lookupA] at h
  exact ⟨hwf, by decide,
    C9_no_catalog_validation ⟨[], []⟩ "s1" "GHOST" "t" ⟨"g1", 0, 0, 0, 0⟩ [] hwf (by decide)⟩

theorem headerCount_append (l1 l2 : List Line) :
    headerCount (l1 ++ l2) = headerCount l1 + headerCount l2 := by
  simp [headerCount, List.countP_append]

theorem scoresFile_save_of_some (st : AppState) (sid code : String)
    (ms : List Measurement) (now : String) (lines : List Line)
    (h : scoresFile st sid = some lines) :
    scoresFile (save_measurements st sid code ms now) sid =
      some (lines ++ ms.map (fun m => Line.record (mkRow code m now))) := by
  have hfile := scoresFile_save_self st sid code ms now
  rw [h] at hfile
  exact hfile

theorem scoresFile_save_of_none (st : AppState) (sid code : String)
    (ms : List Measurement) (now : String) (h : scoresFile st sid = none) :
    scoresFile (save_measurements st sid code ms now) sid =
      some ([Line.header] ++ ms.map (fun m => Line.record (mkRow code m now))) := by
  have hfile := scoresFile_save_self st sid code ms now
  rw [h] at hfile
  exact hfile

/-- Replaying further calls preserves "the log exists and holds exactly one
header line". -/
theorem applyCalls_header_once (sid : String) (calls : List SaveCall)
    (st : AppState) (lines : List Line)
    (h : scoresFile st sid = some lines) (h1 : headerCount lines = 1) :
    ∃ lines2, scoresFile (applyCalls st sid calls) sid = some lines2 ∧
      headerCount lines2 = 1 := by
  induction calls generalizing st lines with
  | nil => exact ⟨lines, h, h1⟩
  | cons c rest ih =>
    refine ih (save_measurements st sid c.image_code c.measurements c.now)
      (lines ++ c.measurements.map (fun m => Line.record (mkRow c.image_code m c.now)))
      (scoresFile_save_of_some st sid c.image_code c.measurements c.now lines h) ?_
    rw [headerCount_append, headerCount_data_rows, h1]

/-- Claim C5: starting from a scorer with no log, any non-empty sequence of
append calls leaves a log containing the header exactly once (written on
first creation). -/
theorem C5_header_exactly_once (st : AppState) (sid : String) (calls : List SaveCall)
    (h0 : scoresFile st sid = none) (hne : calls ≠ []) :
    ∃ lines, scoresFile (applyCalls st sid calls) sid = some lines ∧
      headerCount lines = 1 := by
  cases calls with
  | nil => exact absurd rfl hne
  | cons c rest =>
    have h1 := scoresFile_save_of_none st sid c.image_code c.measurements c.now h0
    have hcount : headerCount ([Line.header] ++ c.measurements.map
        (fun m => Line.record (mkRow c.image_code m c.now))) = 1 := by
      rw [headerCount_append, headerCount_data_rows]
      rfl
    exact applyCalls_header_once sid rest _ _ h1 hcount

/-- Completion is monotone: a code already in the scorer's completed set stays
there across any further `save_measurements` call for that scorer. -/
theorem mem_progress_mono (st : AppState) (sid code c2 now2 : String)
    (ms2 : List Measurement)
    (h : code ∈ get_scorer_progress st sid) :
    code ∈ get_scorer_progress (save_measurements st sid c2 ms2 now2) sid := by
  unfold get_scorer_progress at h
  cases hf : scoresFile st sid with
  | none =>
    rw [hf] at h
    simp at h
  | some lines =>
    rw [hf] at h
    have hsave := scoresFile_save_of_some st sid c2 ms2 now2 lines hf
    unfold get_scorer_progress
    rw [hsave]
    rw [List.mem_dedup] at h ⊢
    cases lines with
    | nil => simp at h
    | cons b bs =>
      simp only [List.cons_append, List.tail_cons] at h ⊢
      rw [List.map_append]
      exact List.mem_append_left _ h

theorem mem_progress_applyCalls (sid code : String) (calls : List SaveCall)
    (st : AppState) (h : code ∈ get_scorer_progress st sid) :
    code ∈ get_scorer_progress (applyCalls st sid calls) sid := by
  induction calls generalizing st with
  | nil => exact h
  | cons c rest ih =>
    exact ih _ (mem_progress_mono st sid code c.image_code c.now c.measurements h)

/-- Claim C2: once a submission with at least one measurement for `code` has
succeeded, `score_next` never assigns `code` to that scorer again, through any
further sequence of submissions by that scorer (catalog unchanged). -/
theorem C2_no_reassignment_after_submit (st : AppState) (sid code now : String)
    (m : Measurement) (ms : List Measurement) (calls : List SaveCall)
    (hwf : WF st) (hc : code ≠ "") :
    NextResult.assignedCode
        (score_next
          (applyCalls (submit_scores st (some sid) (some code) (m :: ms) now).2 sid calls)
          (some sid))
      ≠ some code := by
  have hred : (submit_scores st (some sid) (some code) (m :: ms) now).2
      = save_measurements st sid code (m :: ms) now := by
    show (if code = "" then (SubmitOutcome.errNoImageCode, st)
          else (SubmitOutcome.ok, save_measurements st sid code (m :: ms) now)).2
        = save_measurements st sid code (m :: ms) now
    rw [if_neg hc]
  rw [hred]
  intro h
  have hmem := mem_progress_save st sid code now m ms hwf
  have hmem2 := mem_progress_applyCalls sid code calls _ hmem
  have := assignedCode_not_completed _ sid code h
  exact this.2 hmem2

/-- Witness for claim C2 at a concrete input: one submission, then one more
append call, and the image is still never reassigned. -/
theorem C2_witness :
    WF ⟨[("A001", "2D/AR")], []⟩ ∧ ("A001" : String) ≠ "" ∧
    NextResult.assignedCode
        (score_next
          (applyCalls (submit_scores ⟨[("A001", "2D/AR")], []⟩ (some "s1") (some "A001")
              [⟨"m1", 100, 100, 103, 104⟩] "t").2 "s1" [⟨"A002", [], "t2"⟩])
          (some "s1"))
      ≠ some "A001" := by
  have hwf : WF ⟨[("A001", "2D/AR")], []⟩ := by
    intro sid lines h
    simp [scoresFile, lookupA] at h
  exact ⟨hwf, by decide,
    C2_no_reassignment_after_submit ⟨[("A001", "2D/AR")], []⟩ "s1" "A001" "t"
      ⟨"m1", 100, 100, 103, 104⟩ [] [⟨"A002", [], "t2"⟩] hwf (by decide)⟩

/-- Witness for claim C5 at a concrete input: two append calls, one header. -/
theorem C5_witness :
    scoresFile (⟨[], []⟩ : AppState) "s1" = none ∧
    ([⟨"A001", [], "t1"⟩, ⟨"A001", [], "t2"⟩] : List SaveCall) ≠ [] ∧
    ∃ lines, scoresFile (applyCalls ⟨[], []⟩ "s1"
        [⟨"A001", [], "t1"⟩, ⟨"A001", [], "t2"⟩]) "s1" = some lines ∧
      headerCount lines = 1 :=
  ⟨rfl, List.cons_ne_nil _ _,
    C5_header_exactly_once ⟨[], []⟩ "s1" [⟨"A001", [], "t1"⟩, ⟨"A001", [], "t2"⟩]
      rfl (List.cons_ne_nil _ _)⟩

/-- The catalog listing is sorted. -/
theorem sorted_get_image_list (st : AppState) :
    (get_image_list st).Sorted (· ≤ ·) :=
  List.sorted_mergeSort' _

/-- The catalog listing is a permutation of the manifest keys. -/
theorem get_image_list_perm (st : AppState) :
    List.Perm (get_image_list st) (st.manifest.map Prod.fst) :=
  List.mergeSort_perm _ _

/-- An assigned code is a lower bound of the scorer's uncompleted catalog
codes: `score_next` picks the first remainder in sorted order. -/
theorem assignedCode_min (st : AppState) (sid c : String)
    (h : (score_next st (some sid)).assignedCode = some c) :
    ∀ c2 ∈ get_image_list st, c2 ∉ get_scorer_progress st sid → c ≤ c2 := by
  intro c2 hc2 hns
  simp only [score_next] at h
  split at h
  · simp [NextResult.assignedCode] at h
  · rename_i c0 rest heq
    simp only [NextResult.assignedCode, Option.some.injEq] at h
    subst h
    have hc2f : c2 ∈ (get_image_list st).filter
        (fun x => !((get_scorer_progress st sid).contains x)) := by
      rw [List.mem_filter]
      exact ⟨hc2, by simpa using hns⟩
    rw [heq] at hc2f
    have hsorted : ((get_image_list st).filter
        (fun x => !((get_scorer_progress st sid).contains x))).Sorted (· ≤ ·) :=
      (sorted_get_image_list st).filter _
    rw [heq] at hsorted
    rcases List.mem_cons.mp hc2f with h1 | h1
    · exact le_of_eq h1.symm
    · exact List.rel_of_sorted_cons hsorted c2 h1

/-- Claim C4: the assignment algorithm takes the sorted catalog codes minus
the scorer's completed set and returns the first remainder (`head?`), and a
scorer with no prior submissions is assigned the lexicographically smallest
catalog code. -/
theorem C4_assignment_policy (st : AppState) (sid : String)
    (hfresh : scoresFile st sid = none) (hne : st.manifest ≠ []) :
    (∀ (st2 : AppState) (sid2 : String),
        (score_next st2 (some sid2)).assignedCode =
          ((get_image_list st2).filter
            (fun c => !((get_scorer_progress st2 sid2).contains c))).head?) ∧
    (∀ (st2 : AppState) (sid2 : String),
        (get_image_list st2).filter
            (fun c => !((get_scorer_progress st2 sid2).contains c)) = [] →
        score_next st2 (some sid2) = NextResult.done (get_image_list st2).length sid2) ∧
    (∃ c, (score_next st (some sid)).assignedCode = some c ∧
        c ∈ st.manifest.map Prod.fst ∧
        ∀ c2 ∈ st.manifest.map Prod.fst, c ≤ c2) := by
  have hgen : ∀ (st2 : AppState) (sid2 : String),
      (score_next st2 (some sid2)).assignedCode =
        ((get_image_list st2).filter
          (fun c => !((get_scorer_progress st2 sid2).contains c))).head? := by
    intro st2 sid2
    simp only [score_next]
    split
    · rename_i heq
      rw [heq]
      rfl
    · rename_i c0 rest heq
      rw [heq]
      rfl
  have hdone : ∀ (st2 : AppState) (sid2 : String),
      (get_image_list st2).filter
          (fun c => !((get_scorer_progress st2 sid2).contains c)) = [] →
      score_next st2 (some sid2) = NextResult.done (get_image_list st2).length sid2 := by
    intro st2 sid2 hemp
    simp only [score_next]
    split
    · rfl
    · rename_i c0 rest heq
      rw [hemp] at heq
      exact absurd heq.symm (List.cons_ne_nil c0 rest)
  refine ⟨hgen, hdone, ?_⟩
  have hprog : get_scorer_progress st sid = [] := by
    unfold get_scorer_progress
    rw [hfresh]
  have hrem : (get_image_list st).filter
      (fun c => !((get_scorer_progress st sid).contains c)) = get_image_list st := by
    rw [hprog]
    apply List.filter_eq_self.mpr
    intro a _
    rfl
  have hperm : List.Perm (get_image_list st) (st.manifest.map Prod.fst) :=
    get_image_list_perm st
  have hnil : get_image_list st ≠ [] := by
    intro hnil
    rw [hnil] at hperm
    exact hne (List.map_eq_nil_iff.mp hperm.symm.eq_nil)
  obtain ⟨c, rest, hc⟩ := List.exists_cons_of_ne_nil hnil
  have hassign : (score_next st (some sid)).assignedCode = some c := by
    rw [hgen st sid, hrem, hc]
    rfl
  refine ⟨c, hassign, ?_, ?_⟩
  · refine hperm.mem_iff.mp ?_
    rw [hc]
    exact List.mem_cons_self _ _
  · intro c2 hc2
    refine assignedCode_min st sid c hassign c2 (hperm.mem_iff.mpr hc2) ?_
    rw [hprog]
    exact List.not_mem_nil c2

/-- Witness for claim C4 at a concrete input: a fresh scorer and a two-image
catalog listed out of order. -/
theorem C4_witness :
    scoresFile (⟨[("A002", "3D/Screen"), ("A001", "2D/AR")], []⟩ : AppState) "s1" = none ∧
    (⟨[("A002", "3D/Screen"), ("A001", "2D/AR")], []⟩ : AppState).manifest ≠ [] ∧
    ((∀ (st2 : AppState) (sid2 : String),
        (score_next st2 (some sid2)).assignedCode =
          ((get_image_list st2).filter
            (fun c => !((get_scorer_progress st2 sid2).contains c))).head?) ∧
     (∀ (st2 : AppState) (sid2 : String),
        (get_image_list st2).filter
            (fun c => !((get_scorer_progress st2 sid2).contains c)) = [] →
        score_next st2 (some sid2) = NextResult.done (get_image_list st2).length sid2) ∧
     (∃ c, (score_next (⟨[("A002", "3D/Screen"), ("A001", "2D/AR")], []⟩ : AppState)
              (some "s1")).assignedCode = some c ∧
        c ∈ (⟨[("A002", "3D/Screen"), ("A001", "2D/AR")], []⟩ : AppState).manifest.map Prod.fst ∧
        ∀ c2 ∈ (⟨[("A002", "3D/Screen"), ("A001", "2D/AR")], []⟩ : AppState).manifest.map Prod.fst,
          c ≤ c2)) :=
  ⟨rfl, by decide, C4_assignment_policy _ "s1" rfl (by decide)⟩

/-- Claim C6: every scorer entry reported by `admin_status` carries
`percent = round(scored / total * 100)`, and the percent is `0` when the
catalog is empty, with no division by zero. -/
theorem C6_admin_percent (st : AppState) (e : ScorerStatus)
    (he : e ∈ (admin_status st).2) :
    e.pct = (if e.total = 0 then 0
             else pyRound ((e.scored : ℚ) / (e.total : ℚ) * 100)) ∧
    (e.total = 0 → e.pct = 0) := by
  simp only [admin_status] at he
  rw [List.mem_filterMap] at he
  obtain ⟨name, _, hf⟩ := he
  split at hf
  · simp at hf
  · rw [Option.some.injEq] at hf
    subst hf
    constructor
    · rfl
    · intro h0
      have h0' : (get_image_list st).length = 0 := h0
      simp [h0']

/-- Witness for claim C6 at a concrete input: one scorer with a header-only
log and a one-image catalog. -/
theorem C6_witness :
    (⟨"s1", 0, 1, 0⟩ : ScorerStatus)
        ∈ (admin_status ⟨[("A001", "2D/AR")], [("s1", some [Line.header])]⟩).2 ∧
    ((⟨"s1", 0, 1, 0⟩ : ScorerStatus).pct
        = (if (⟨"s1", 0, 1, 0⟩ : ScorerStatus).total = 0 then 0
           else pyRound (((⟨"s1", 0, 1, 0⟩ : ScorerStatus).scored : ℚ)
             / ((⟨"s1", 0, 1, 0⟩ : ScorerStatus).total : ℚ) * 100)) ∧
     ((⟨"s1", 0, 1, 0⟩ : ScorerStatus).total = 0
        → (⟨"s1", 0, 1, 0⟩ : ScorerStatus).pct = 0)) := by
  have hlist : (admin_status ⟨[("A001", "2D/AR")], [("s1", some [Line.header])]⟩).2
      = [⟨"s1", 0, 1, 0⟩] := by
    simp only [admin_status, get_image_list, get_scorer_progress, scoresFile, lookupA,
      List.map_cons, List.map_nil, List.mergeSort_singleton, List.filterMap_cons,
      List.filterMap_nil]
    norm_num [pyRound]
  have hmem : (⟨"s1", 0, 1, 0⟩ : ScorerStatus)
      ∈ (admin_status ⟨[("A001", "2D/AR")], [("s1", some [Line.header])]⟩).2 := by
    rw [hlist]
    exact List.mem_singleton_self _
  exact ⟨hmem, C6_admin_percent ⟨[("A001", "2D/AR")], [("s1", some [Line.header])]⟩ _ hmem⟩
